/-
Verification of the `swagexample` repository (AllenNLP SWAG example plugin).

The repository has two units:
  * `SWAGDatasetReader` (src/swagexample/readers.py): parses a CSV file
    (header row with columns startphrase, ending0..ending3, optional label)
    into one `Instance` per data row.
  * `SWAGExampleModel` (src/swagexample/models.py): embeds the five text
    fields with a shared text-field embedder, encodes the startphrase and the
    four endings with two Seq2Vec encoders, scores each ending by the dot
    product with the startphrase vector (stack / bmm / squeeze), applies a
    softmax, and optionally computes a cross-entropy loss and updates a
    running categorical-accuracy accumulator.

The shallow embedding below models the rows of the CSV at the level of the
parsed records handed to `csv.DictReader` (the byte-level CSV parsing and the
file system are the Python standard library's job), models tensors of
rationals (floating-point rounding is ignored; `exp` and `log` of the numeric
backend are passed in as function parameters `E` and `Lg`), and models
fallible paths (KeyError, torch/allennlp shape errors, ConfigurationError)
with `Except String`.
-/
import Mathlib

namespace SwagExample

/-! ### CSV rows and `csv.DictReader` semantics

`csv.DictReader` turns the first record into the field names and each later
record into a dict `dict(zip(fieldnames, row))`; when the row is shorter than
the header the missing keys are filled with the restval `None`.  Empty records
are skipped.  A Python dict built by successive insertion lets a later
assignment to the same key overwrite an earlier one, which `dictGet?`
reproduces by taking the last matching pair. -/

/-- One parsed CSV file: the header record and the data records. -/
structure CSVFile where
  header : List String
  rows : List (List String)

/-- `dict(zip(fieldnames, row))` with restval `None` padding for short rows:
an association list in insertion order; a cell value of `Option.none` models
Python's `None` restval. -/
def dictZip (fieldnames row : List String) : List (String × Option String) :=
  (fieldnames.zip row).map (fun p => (p.1, some p.2)) ++
    (fieldnames.drop row.length).map (fun k => (k, none))

/-- Python dict lookup on an insertion-ordered association list: the last
insertion for a key wins; `none` when the key is absent. -/
def dictGet? {α : Type} (d : List (String × α)) (k : String) : Option α :=
  (d.reverse.find? (fun p => p.1 == k)).map (fun p => p.2)

/-- `row[k]` for a required column, as used for the five text columns of
`SWAGDatasetReader._read`.  A missing key raises `KeyError`; a `None` cell
(restval padding of a short row) later crashes the tokenizer, so both are
modelled as errors. -/
def dictReq (d : List (String × Option String)) (k : String) : Except String String :=
  match dictGet? d k with
  | none => .error ((("KeyError: ") ++ k))
  | some none => .error ((("field is None: ") ++ k))
  | some (some s) => .ok s

/-! ### The dataset reader -/

/-- One produced training instance: the five tokenized text fields and the
optional label field (`fields['label'] = LabelField(label)` is added exactly
when `label is not None`; the label is kept as the raw CSV string). -/
structure Instance where
  startphrase : List String
  ending0 : List String
  ending1 : List String
  ending2 : List String
  ending3 : List String
  label : Option String
deriving DecidableEq, Repr

/-- `SWAGDatasetReader.__init__`: the lazy flag and the tokenizer.  The token
indexers configure vocabulary indexing inside the external framework and play
no role in any behavior modelled here. -/
structure SWAGDatasetReader where
  lazy : Bool
  tokenizer : String → List String

/-- `SWAGDatasetReader.text_to_instance`: tokenize the five texts; add the
label field exactly when a label was given, keeping the string unmodified. -/
def SWAGDatasetReader.text_to_instance (r : SWAGDatasetReader)
    (startphrase ending0 ending1 ending2 ending3 : String)
    (label : Option String) : Instance :=
  { startphrase := r.tokenizer startphrase
    ending0 := r.tokenizer ending0
    ending1 := r.tokenizer ending1
    ending2 := r.tokenizer ending2
    ending3 := r.tokenizer ending3
    label := label }

/-- One step of `SWAGDatasetReader._read`'s loop body: build the row dict,
read the five required columns (`row['startphrase']`, ...), and call
`text_to_instance` with `row.get('label')` (absent column or `None` padding
both give no label). -/
def SWAGDatasetReader.readRow (r : SWAGDatasetReader)
    (header row : List String) : Except String Instance := do
  let d := dictZip header row
  let sp ← dictReq d ("startphrase")
  let e0 ← dictReq d ("ending0")
  let e1 ← dictReq d ("ending1")
  let e2 ← dictReq d ("ending2")
  let e3 ← dictReq d ("ending3")
  return r.text_to_instance sp e0 e1 e2 e3 ((dictGet? d ("label")).join)

/-- Sequence a fallible row parser over the rows; the generator yields one
instance per row and an exception raised at some row propagates. -/
def mapExcept {α β : Type} (f : α → Except String β) : List α → Except String (List β)
  | [] => .ok []
  | a :: as =>
    match f a with
    | .error e => .error e
    | .ok b => (mapExcept f as).map (fun bs => b :: bs)

/-- `SWAGDatasetReader._read`: iterate `csv.DictReader` (which skips empty
records) over the data rows and yield `text_to_instance` of each row. -/
def SWAGDatasetReader.read (r : SWAGDatasetReader) (csv : CSVFile) :
    Except String (List Instance) :=
  mapExcept (r.readRow csv.header) (csv.rows.filter (fun row => !row.isEmpty))

/-- The instance a well-formed row parses to: each required column read from
the row dict, the label taken by `row.get('label')`. -/
def rowInstance (r : SWAGDatasetReader) (header row : List String) : Instance :=
  let d := dictZip header row
  r.text_to_instance
    (((dictGet? d ("startphrase")).join).getD (""))
    (((dictGet? d ("ending0")).join).getD (""))
    (((dictGet? d ("ending1")).join).getD (""))
    (((dictGet? d ("ending2")).join).getD (""))
    (((dictGet? d ("ending3")).join).getD (""))
    ((dictGet? d ("label")).join)

/-! ### Tensors

A rational-valued tensor as a nested array, enough to express the shapes that
`torch.Tensor.squeeze` (drop every dimension of size 1) produces. -/

/-- A tensor: a scalar or an array of tensors.  All tensors built here are
rectangular. -/
inductive Tensor where
  | scalar : ℚ → Tensor
  | arr : List Tensor → Tensor

/-- The shape of a (rectangular) tensor, read off along first children. -/
def Tensor.shape : Tensor → List ℕ
  | .scalar _ => []
  | .arr ts => ts.length :: (match ts with | [] => [] | t :: _ => t.shape)

mutual
/-- `torch.Tensor.squeeze()` with no argument: remove every dimension of
size 1. -/
def Tensor.squeeze : Tensor → Tensor
  | .scalar q => .scalar q
  | .arr [t] => Tensor.squeeze t
  | .arr ts => .arr (Tensor.squeezeList ts)

/-- `squeeze` mapped over the entries of a dimension of size ≠ 1. -/
def Tensor.squeezeList : List Tensor → List Tensor
  | [] => []
  | t :: ts => Tensor.squeeze t :: Tensor.squeezeList ts
end

/-- The scalar held by a 0-dimensional tensor. -/
def Tensor.scalar? : Tensor → Option ℚ
  | .scalar q => some q
  | .arr _ => none

/-- View a list of tensors as a vector of scalars (an innermost dimension). -/
def scalarsOf (ts : List Tensor) : Option (List ℚ) :=
  ts.mapM Tensor.scalar?

/-- View a tensor as a 2-dimensional matrix (list of rows of scalars). -/
def Tensor.asMatrix? : Tensor → Option (List (List ℚ))
  | .scalar _ => none
  | .arr ts => ts.mapM (fun t =>
      match t with
      | .scalar _ => none
      | .arr rs => scalarsOf rs)

/-- `softmax` of a vector, with the backend's `exp` passed in as `E`:
`softmax(v)_i = exp v_i / Σ_j exp v_j`. -/
def softmax (E : ℚ → ℚ) (v : List ℚ) : List ℚ :=
  v.map (fun x => E x / (v.map E).sum)

mutual
/-- `torch.nn.functional.softmax(t, dim=-1)`: apply `softmax` along the last
dimension, i.e. to every innermost vector of scalars. -/
def Tensor.softmaxLast (E : ℚ → ℚ) : Tensor → Tensor
  | .scalar q => .scalar q
  | .arr ts =>
    match scalarsOf ts with
    | some qs => .arr ((softmax E qs).map Tensor.scalar)
    | none => .arr (Tensor.softmaxLastList E ts)

/-- `softmaxLast` mapped over an outer dimension. -/
def Tensor.softmaxLastList (E : ℚ → ℚ) : List Tensor → List Tensor
  | [] => []
  | t :: ts => Tensor.softmaxLast E t :: Tensor.softmaxLastList E ts
end

/-! ### Batched linear algebra (`torch.stack` / `bmm` / `unsqueeze`) -/

/-- Dot product of two vectors. -/
def dot (a b : List ℚ) : ℚ :=
  (List.zipWith (fun x y => x * y) a b).sum

/-- The number of columns of a matrix (the length of its first row). -/
def numCols (B : List (List ℚ)) : ℕ :=
  (B.headD []).length

/-- Column `j` of a matrix. -/
def colOf (B : List (List ℚ)) (j : ℕ) : List ℚ :=
  B.map (fun r => ((r.get? j).getD 0))

/-- Matrix product: entry `(i, j)` is the dot product of row `i` of `A` with
column `j` of `B`. -/
def matMul (A B : List (List ℚ)) : List (List ℚ) :=
  A.map (fun row => (List.range (numCols B)).map (fun j => dot row (colOf B j)))

/-- `torch.bmm`: batched matrix product. -/
def bmm (X Y : List (List (List ℚ))) : List (List (List ℚ)) :=
  List.zipWith matMul X Y

/-- `torch.stack([e0, e1, e2, e3], dim=-2)` on four `batch × dim` matrices:
a `batch × 4 × dim` tensor. -/
def stack4 {α : Type} : List α → List α → List α → List α → List (List α)
  | a :: as, b :: bs, c :: cs, d :: ds => [a, b, c, d] :: stack4 as bs cs ds
  | _, _, _, _ => []

/-- `unsqueeze(-1)` on a vector: a `dim × 1` column matrix. -/
def unsqueezeLast (v : List ℚ) : List (List ℚ) :=
  v.map (fun q => [q])

/-- View a `batch × rows × cols` list of lists of lists as a `Tensor`. -/
def tensor3 (t : List (List (List ℚ))) : Tensor :=
  .arr (t.map (fun m => .arr (m.map (fun r => .arr (r.map Tensor.scalar)))))

/-! ### The model's collaborators

A text field of a batch is the list, one entry per example, of the example's
token-id sequences; `get_text_field_mask` marks the non-padding (non-zero)
ids.  The text-field embedder and the two Seq2Vec encoders are the external
modules the model composes; they are modelled by their per-example functional
behavior plus the dimensions they report for the construction-time checks. -/

/-- A batched text field: one token-id sequence per example. -/
abbrev TextFieldBatch := List (List ℕ)

/-- `allennlp.nn.util.get_text_field_mask` on one example: 1 for each
non-padding (non-zero) token id. -/
def tfMask (tokens : List ℕ) : List ℕ :=
  tokens.map (fun t => if t = 0 then 0 else 1)

/-- A `TextFieldEmbedder`: token ids to one vector per token, plus the
output dimension it reports. -/
structure Embedder where
  get_output_dim : ℕ
  embed : List ℕ → List (List ℚ)

/-- A `Seq2VecEncoder`: token vectors plus a mask to a single vector, plus
the input/output dimensions it reports. -/
structure Seq2VecEncoder where
  get_input_dim : ℕ
  get_output_dim : ℕ
  encode : List (List ℚ) → List ℕ → List ℚ

/-- `allennlp.training.metrics.CategoricalAccuracy`: running counts of
correct predictions and of scored examples. -/
structure CategoricalAccuracy where
  correct_count : ℕ
  total_count : ℕ
deriving DecidableEq, Repr

/-- Index of the first maximum of a vector (`predictions.max(-1)[1]`). -/
def argmax (v : List ℚ) : ℕ :=
  (v.foldl
    (fun st x =>
      match st with
      | (best, bestIdx, idx) => if best < x then (x, idx, idx + 1) else (best, bestIdx, idx + 1))
    ((v.headD 0, 0, 0) : ℚ × ℕ × ℕ)).2.1

/-- The per-batch deltas of `CategoricalAccuracy.__call__`: the number of
examples whose top-scoring class is the gold label, and the batch size.  Like
the real metric it requires 2-dimensional predictions with one gold label per
row. -/
def accDeltas (predictions : Tensor) (goldLabels : List ℕ) : Except String (ℕ × ℕ) :=
  match predictions.asMatrix? with
  | none => .error (("CategoricalAccuracy: gold label dimension mismatch"))
  | some rows =>
    if rows.length = goldLabels.length then
      .ok (((rows.zip goldLabels).filter (fun p => argmax p.1 = p.2)).length, rows.length)
    else
      .error (("CategoricalAccuracy: batch size mismatch"))

/-- `CategoricalAccuracy.__call__`: accumulate the per-batch deltas. -/
def CategoricalAccuracy.call (acc : CategoricalAccuracy) (predictions : Tensor)
    (goldLabels : List ℕ) : Except String CategoricalAccuracy :=
  (accDeltas predictions goldLabels).map
    (fun d => ⟨acc.correct_count + d.1, acc.total_count + d.2⟩)

/-- `CategoricalAccuracy.get_metric(reset)`: the accumulated accuracy (0 when
nothing was counted), resetting the counts exactly when `reset` is true. -/
def CategoricalAccuracy.get_metric (acc : CategoricalAccuracy) (reset : Bool) :
    ℚ × CategoricalAccuracy :=
  ((if 0 < acc.total_count then (acc.correct_count : ℚ) / (acc.total_count : ℚ) else 0),
    if reset then ⟨0, 0⟩ else acc)

/-- `torch.nn.CrossEntropyLoss()` (mean reduction) with the backend's `exp`
and `log` passed in as `E` and `Lg`: per example `log Σ_j exp l_j - l_y`,
averaged over the batch.  With a 1-dimensional (length `N`) target it
requires a 2-dimensional `N × C` input tensor and gold indices below `C`. -/
def crossEntropyLoss (E Lg : ℚ → ℚ) (input : Tensor) (target : List ℕ) :
    Except String ℚ :=
  match input.asMatrix? with
  | none => .error (("cross_entropy: expected 2-dimensional input"))
  | some rows =>
    if rows.length = target.length then
      match (rows.zip target).mapM
          (fun p => ((p.1.get? p.2).map (fun ly => Lg ((p.1.map E).sum) - ly))) with
      | none => .error (("cross_entropy: target out of range"))
      | some losses => .ok (losses.sum / (rows.length : ℚ))
    else
      .error (("cross_entropy: batch size mismatch"))

/-! ### The model -/

/-- `SWAGExampleModel`: the modules bound in `__init__` plus the running
accuracy accumulator.  `self.xentropy` carries no state of its own and the
regularizer only feeds the external training loop, so neither needs a
field. -/
structure SWAGExampleModel where
  vocab : ℕ
  text_field_embedder : Embedder
  startphrase_encoder : Seq2VecEncoder
  ending_encoder : Seq2VecEncoder
  similarity : List ℚ → List ℚ → ℚ
  accuracy : CategoricalAccuracy

/-- `allennlp.common.checks.check_dimensions_match`: raise a
`ConfigurationError` unless the two dimensions are equal. -/
def check_dimensions_match (dim1 dim2 : ℕ) (name1 name2 : String) :
    Except String Unit :=
  if dim1 ≠ dim2 then .error (name1 ++ (" must match ") ++ name2) else .ok ()

/-- `SWAGExampleModel.__init__`: validate the three dimension matches, bind
the modules, start the accuracy at zero, and run the initializer over the
learnable modules (the initializer rewrites weights, modelled as a function
on the three modules; the similarity function has no influence on any
computation modelled here). -/
def SWAGExampleModel.make (vocab : ℕ) (text_field_embedder : Embedder)
    (startphrase_encoder ending_encoder : Seq2VecEncoder)
    (similarity : List ℚ → List ℚ → ℚ)
    (initializer : Embedder × Seq2VecEncoder × Seq2VecEncoder →
      Embedder × Seq2VecEncoder × Seq2VecEncoder) :
    Except String SWAGExampleModel := do
  check_dimensions_match text_field_embedder.get_output_dim
    startphrase_encoder.get_input_dim
    ("text field embedding dim") ("startphrase encoder input dim")
  check_dimensions_match text_field_embedder.get_output_dim
    ending_encoder.get_input_dim
    ("text field embedding dim") ("ending encoder input dim")
  check_dimensions_match startphrase_encoder.get_output_dim
    ending_encoder.get_output_dim
    ("startphrase embedding dim") ("ending embedding dim")
  let inited := initializer (text_field_embedder, startphrase_encoder, ending_encoder)
  return { vocab := vocab
           text_field_embedder := inited.1
           startphrase_encoder := inited.2.1
           ending_encoder := inited.2.2
           similarity := similarity
           accuracy := ⟨0, 0⟩ }

/-- The initial pass of `forward`: the shared text-field embedder applied to
each example of a batched text field. -/
def embedField (e : Embedder) (field : TextFieldBatch) : List (List (List ℚ)) :=
  field.map e.embed

/-- An encoder applied to an embedded batch with the field's mask:
one fixed-size vector per example. -/
def encodeField (enc : Seq2VecEncoder) (initial : List (List (List ℚ)))
    (field : TextFieldBatch) : List (List ℚ) :=
  List.zipWith enc.encode initial (field.map tfMask)

/-- The `batch × 4 × 1` logits tensor of `forward` before the squeeze:
the endings stacked along `dim=-2`, `bmm`-multiplied with the unsqueezed
startphrase embedding. -/
def modelLogits3 (m : SWAGExampleModel)
    (startphrase ending0 ending1 ending2 ending3 : TextFieldBatch) :
    List (List (List ℚ)) :=
  let startphrase_embedding :=
    encodeField m.startphrase_encoder (embedField m.text_field_embedder startphrase) startphrase
  let ending0_embedding :=
    encodeField m.ending_encoder (embedField m.text_field_embedder ending0) ending0
  let ending1_embedding :=
    encodeField m.ending_encoder (embedField m.text_field_embedder ending1) ending1
  let ending2_embedding :=
    encodeField m.ending_encoder (embedField m.text_field_embedder ending2) ending2
  let ending3_embedding :=
    encodeField m.ending_encoder (embedField m.text_field_embedder ending3) ending3
  bmm (stack4 ending0_embedding ending1_embedding ending2_embedding ending3_embedding)
    (startphrase_embedding.map unsqueezeLast)

/-- The `logits` tensor of `forward`: the stacked dot products, squeezed. -/
def modelLogits (m : SWAGExampleModel)
    (startphrase ending0 ending1 ending2 ending3 : TextFieldBatch) : Tensor :=
  (tensor3 (modelLogits3 m startphrase ending0 ending1 ending2 ending3)).squeeze

/-- A value of the output dictionary of `forward`: a tensor, or the optional
loss (`None` when no labels were given). -/
inductive OutVal where
  | tensor : Tensor → OutVal
  | loss : Option ℚ → OutVal

/-- The output dictionary of `forward`. -/
abbrev OutDict := List (String × OutVal)

/-- The dictionary literal `forward` returns. -/
def outDict (logits probabilities : Tensor) (loss : Option ℚ) : OutDict :=
  [(("logits"), .tensor logits),
   (("probabilities"), .tensor probabilities),
   (("loss"), .loss loss)]

/-- `SWAGExampleModel.forward`.  `E` and `Lg` are the numeric backend's `exp`
and `log`; `label`, when present, holds one gold index per example
(`label.long().view(-1)`); `metadata` is accepted and ignored.  The result is
the output dictionary together with the model state after the call (only the
accuracy accumulator can differ), or the propagated exception. -/
def SWAGExampleModel.forward (E Lg : ℚ → ℚ) (m : SWAGExampleModel)
    (startphrase ending0 ending1 ending2 ending3 : TextFieldBatch)
    (label : Option (List ℕ)) (metadata : Option (List String)) :
    Except String (OutDict × SWAGExampleModel) :=
  let logits := modelLogits m startphrase ending0 ending1 ending2 ending3
  let probabilities := logits.softmaxLast E
  match label with
  | none => .ok (outDict logits probabilities none, m)
  | some lbls =>
    match crossEntropyLoss E Lg logits lbls with
    | .error e => .error e
    | .ok lossVal =>
      (m.accuracy.call logits lbls).map
        (fun acc => (outDict logits probabilities (some lossVal),
          { m with accuracy := acc }))

/-- `SWAGExampleModel.get_metrics(reset)`: report the accuracy, resetting the
accumulator exactly when asked to. -/
def SWAGExampleModel.get_metrics (m : SWAGExampleModel) (reset : Bool) :
    List (String × ℚ) × SWAGExampleModel :=
  let vm := m.accuracy.get_metric reset
  ([(("accuracy"), vm.1)], { m with accuracy := vm.2 })

/-! ### The specification's description of the scores

Spec §4.2 steps 2–3: encode the startphrase via encoder A and each ending
independently via encoder B, then score each ending by the dot product with
the startphrase vector — four raw scores per example. -/

/-- Modelled from the spec's words (§4.2 steps 1–3), for comparison with the
stack/bmm/squeeze pipeline of the source: per example, the four dot products
of the startphrase vector with the four ending vectors. -/
def specDotScores (m : SWAGExampleModel)
    (startphrase ending0 ending1 ending2 ending3 : TextFieldBatch) :
    List (List ℚ) :=
  let s := encodeField m.startphrase_encoder (embedField m.text_field_embedder startphrase) startphrase
  let es := stack4
    (encodeField m.ending_encoder (embedField m.text_field_embedder ending0) ending0)
    (encodeField m.ending_encoder (embedField m.text_field_embedder ending1) ending1)
    (encodeField m.ending_encoder (embedField m.text_field_embedder ending2) ending2)
    (encodeField m.ending_encoder (embedField m.text_field_embedder ending3) ending3)
  List.zipWith (fun sv evs => evs.map (fun ev => dot sv ev)) s es

/-! ### Reader lemmas -/

/-- A row at least as long as the header needs no restval padding. -/
lemma dictZip_of_le (fields row : List String) (h : fields.length ≤ row.length) :
    dictZip fields row = (fields.zip row).map (fun p => (p.1, some p.2)) := by
  unfold dictZip
  rw [List.drop_eq_nil_of_le h]
  simp

/-- Looking a present column up in the dict of a long-enough row yields a
string cell. -/
lemma dictGet?_mem_of_le {fields row : List String} {k : String}
    (hk : k ∈ fields) (hle : fields.length ≤ row.length) :
    ∃ s, dictGet? (dictZip fields row) k = some (some s) := by
  rw [dictZip_of_le _ _ hle]
  have hk' : k ∈ (fields.zip row).map Prod.fst := by
    rw [List.map_fst_zip _ _ hle]; exact hk
  obtain ⟨p, hpmem, hpk⟩ := List.mem_map.mp hk'
  have hmem : (p.1, some p.2) ∈ ((fields.zip row).map (fun p => (p.1, some p.2))).reverse := by
    rw [List.mem_reverse]
    exact List.mem_map.mpr ⟨p, hpmem, rfl⟩
  have hsome : ((((fields.zip row).map (fun p => (p.1, some p.2))).reverse).find?
      (fun q => q.1 == k)).isSome := by
    rw [List.find?_isSome]
    exact ⟨(p.1, some p.2), hmem, by simp [hpk]⟩
  obtain ⟨q, hq⟩ := Option.isSome_iff_exists.mp hsome
  have hqmem := List.mem_of_find?_eq_some hq
  rw [List.mem_reverse] at hqmem
  obtain ⟨p', _, hp'⟩ := List.mem_map.mp hqmem
  refine ⟨p'.2, ?_⟩
  simp only [dictGet?, hq, Option.map_some]
  rw [← hp']
  rfl

/-- Looking an absent column up yields nothing (Python's `row.get` default). -/
lemma dictGet?_not_mem {fields row : List String} {k : String} (hk : k ∉ fields) :
    dictGet? (dictZip fields row) k = none := by
  have hnone : (dictZip fields row).reverse.find? (fun q => q.1 == k) = none := by
    rw [List.find?_eq_none]
    intro x hx
    rw [List.mem_reverse] at hx
    unfold dictZip at hx
    rcases List.mem_append.mp hx with h1 | h2
    · obtain ⟨p, hp, rfl⟩ := List.mem_map.mp h1
      have hmem := (List.of_mem_zip hp).1
      simp only [beq_iff_eq]
      intro hEq
      exact hk (hEq ▸ hmem)
    · obtain ⟨k', hk', rfl⟩ := List.mem_map.mp h2
      have hmem : k' ∈ fields := List.mem_of_mem_drop hk'
      simp only [beq_iff_eq]
      intro hEq
      exact hk (hEq ▸ hmem)
  simp [dictGet?, hnone]

/-- On a row that provides every header column, `_read`'s loop body succeeds
and produces exactly the row's instance. -/
lemma readRow_ok (r : SWAGDatasetReader) (header row : List String)
    (hle : header.length ≤ row.length)
    (h0 : ("startphrase") ∈ header) (h1 : ("ending0") ∈ header)
    (h2 : ("ending1") ∈ header) (h3 : ("ending2") ∈ header)
    (h4 : ("ending3") ∈ header) :
    r.readRow header row = .ok (rowInstance r header row) := by
  obtain ⟨s0, e0⟩ := dictGet?_mem_of_le h0 hle
  obtain ⟨s1, e1⟩ := dictGet?_mem_of_le h1 hle
  obtain ⟨s2, e2⟩ := dictGet?_mem_of_le h2 hle
  obtain ⟨s3, e3⟩ := dictGet?_mem_of_le h3 hle
  obtain ⟨s4, e4⟩ := dictGet?_mem_of_le h4 hle
  simp [SWAGDatasetReader.readRow, rowInstance, dictReq, e0, e1, e2, e3, e4,
    Bind.bind, Except.bind, Pure.pure, Except.pure]

/-- `mapExcept` of a parser that succeeds on every element. -/
lemma mapExcept_ok {α β : Type} (f : α → Except String β) (g : α → β) :
    ∀ l : List α, (∀ a ∈ l, f a = .ok (g a)) → mapExcept f l = .ok (l.map g) := by
  intro l
  induction l with
  | nil => intro _; rfl
  | cons a as ih =>
    intro h
    have ha := h a (by simp)
    have hrest := ih (fun x hx => h x (by simp [hx]))
    simp [mapExcept, ha, hrest, Except.map]

/-- `_read` on a CSV whose header has the five text columns and whose rows
all match the header in width: one instance per row, in row order. -/
lemma read_ok (r : SWAGDatasetReader) (csv : CSVFile)
    (h0 : ("startphrase") ∈ csv.header) (h1 : ("ending0") ∈ csv.header)
    (h2 : ("ending1") ∈ csv.header) (h3 : ("ending2") ∈ csv.header)
    (h4 : ("ending3") ∈ csv.header)
    (hrect : ∀ row ∈ csv.rows, row.length = csv.header.length) :
    r.read csv = .ok (csv.rows.map (rowInstance r csv.header)) := by
  have hpos : 0 < csv.header.length :=
    List.length_pos.mpr (List.ne_nil_of_mem h0)
  have hfilter : csv.rows.filter (fun row => !row.isEmpty) = csv.rows := by
    apply List.filter_eq_self.mpr
    intro row hrow
    have hlen := hrect row hrow
    cases row with
    | nil => simp at hlen; omega
    | cons a as => simp
  unfold SWAGDatasetReader.read
  rw [hfilter]
  exact mapExcept_ok _ _ _
    (fun row hrow => readRow_ok r _ row (le_of_eq (hrect row hrow).symm) h0 h1 h2 h3 h4)

/-! ### Model lemmas -/

/-- The dot product is commutative. -/
lemma dot_comm (a b : List ℚ) : dot a b = dot b a := by
  unfold dot
  rw [List.zipWith_comm_of_comm _ mul_comm]

/-- Multiplying a matrix with an unsqueezed nonempty vector computes the dot
product of each row with the vector, as a column. -/
lemma matMul_unsqueezeLast (es : List (List ℚ)) (sv : List ℚ) (h : sv ≠ []) :
    matMul es (unsqueezeLast sv) = es.map (fun ev => [dot sv ev]) := by
  cases sv with
  | nil => exact absurd rfl h
  | cons a as =>
    have hcols : numCols (unsqueezeLast (a :: as)) = 1 := by
      simp [numCols, unsqueezeLast]
    have hcol : colOf (unsqueezeLast (a :: as)) 0 = a :: as := by
      unfold colOf unsqueezeLast
      rw [List.map_map]
      simp [Function.comp_def]
    have hfun : (fun row => [dot row (a :: as)]) = (fun ev => [dot (a :: as) ev]) :=
      funext (fun ev => by rw [dot_comm])
    unfold matMul
    rw [hcols]
    simp only [List.range_succ, List.range_zero, List.nil_append, List.map_cons,
      List.map_nil, hcol]
    rw [hfun]

/-- A property holding of all values of a binary function holds of every
entry of a `zipWith`. -/
lemma forall_mem_zipWith {α β γ : Type} (p : γ → Prop) (f : α → β → γ)
    (hf : ∀ a b, p (f a b)) :
    ∀ (l1 : List α) (l2 : List β), ∀ x ∈ List.zipWith f l1 l2, p x := by
  intro l1
  induction l1 with
  | nil => intro l2 x hx; simp at hx
  | cons a as ih =>
    intro l2 x hx
    cases l2 with
    | nil => simp at hx
    | cons b bs =>
      rcases (by simpa using hx : x = f a b ∨ x ∈ List.zipWith f as bs) with h | h
      · exact h ▸ hf a b
      · exact ih bs x h

/-- The batched stack/bmm/unsqueeze pipeline computes, per example, the
column of dot products of the startphrase vector with the stacked vectors. -/
lemma zipWith_matMul_unsqueezeLast (S : List (List ℚ)) (ES : List (List (List ℚ)))
    (h : ∀ sv ∈ S, sv ≠ []) :
    List.zipWith matMul ES (S.map unsqueezeLast)
      = (List.zipWith (fun sv evs => evs.map (fun ev => dot sv ev)) S ES).map
          (fun r => r.map (fun q => [q])) := by
  induction S generalizing ES with
  | nil => simp
  | cons sv S ih =>
    cases ES with
    | nil => simp
    | cons es ES =>
      have hsv : sv ≠ [] := h sv (by simp)
      simp only [List.map_cons, List.zipWith_cons_cons]
      rw [matMul_unsqueezeLast es sv hsv, ih ES (fun v hv => h v (by simp [hv]))]
      simp [List.map_map]

/-- Projecting the output values of `forward`: the shape of a tensor value. -/
def OutVal.tensorShape? : OutVal → Option (List ℕ)
  | .tensor t => some t.shape
  | .loss _ => none

/-- Projecting the output values of `forward`: the optional loss value. -/
def OutVal.loss? : OutVal → Option (Option ℚ)
  | .loss l => some l
  | .tensor _ => none

/-- The logits entry of the output dictionary. -/
lemma outDict_get_logits (lg pb : Tensor) (ls : Option ℚ) :
    dictGet? (outDict lg pb ls) ("logits") = some (.tensor lg) := rfl

/-- The loss entry of the output dictionary. -/
lemma outDict_get_loss (lg pb : Tensor) (ls : Option ℚ) :
    dictGet? (outDict lg pb ls) ("loss") = some (.loss ls) := rfl

/-- The keys of the output dictionary. -/
lemma outDict_keys (lg pb : Tensor) (ls : Option ℚ) :
    (outDict lg pb ls).map Prod.fst = [("logits"), ("probabilities"), ("loss")] := rfl

/-- `forward` without labels: the output dictionary with a `None` loss, and
the model unchanged. -/
lemma forward_none (E Lg : ℚ → ℚ) (m : SWAGExampleModel)
    (sp e0 e1 e2 e3 : TextFieldBatch) (md : Option (List String)) :
    SWAGExampleModel.forward E Lg m sp e0 e1 e2 e3 none md
      = .ok (outDict (modelLogits m sp e0 e1 e2 e3)
          ((modelLogits m sp e0 e1 e2 e3).softmaxLast E) none, m) := rfl

/-- `forward` with labels, unfolded to the loss and accuracy steps. -/
lemma forward_some (E Lg : ℚ → ℚ) (m : SWAGExampleModel)
    (sp e0 e1 e2 e3 : TextFieldBatch) (lbls : List ℕ) (md : Option (List String)) :
    SWAGExampleModel.forward E Lg m sp e0 e1 e2 e3 (some lbls) md
      = match crossEntropyLoss E Lg (modelLogits m sp e0 e1 e2 e3) lbls with
        | .error e => .error e
        | .ok lossVal =>
          (m.accuracy.call (modelLogits m sp e0 e1 e2 e3) lbls).map
            (fun acc => (outDict (modelLogits m sp e0 e1 e2 e3)
              ((modelLogits m sp e0 e1 e2 e3).softmaxLast E) (some lossVal),
              { m with accuracy := acc })) := rfl

/-- The logits do not read the accuracy accumulator. -/
lemma modelLogits_set_accuracy (m : SWAGExampleModel) (a : CategoricalAccuracy)
    (sp e0 e1 e2 e3 : TextFieldBatch) :
    modelLogits { m with accuracy := a } sp e0 e1 e2 e3
      = modelLogits m sp e0 e1 e2 e3 := rfl

/-- The logits do not read the similarity function. -/
lemma modelLogits_set_similarity (m : SWAGExampleModel) (s' : List ℚ → List ℚ → ℚ)
    (sp e0 e1 e2 e3 : TextFieldBatch) :
    modelLogits { m with similarity := s' } sp e0 e1 e2 e3
      = modelLogits m sp e0 e1 e2 e3 := rfl

/-- Reading back a replaced accuracy accumulator. -/
lemma accuracy_set_accuracy (m : SWAGExampleModel) (a : CategoricalAccuracy) :
    ({ m with accuracy := a } : SWAGExampleModel).accuracy = a := rfl

/-- Replacing the similarity function leaves the accumulator alone. -/
lemma accuracy_set_similarity (m : SWAGExampleModel) (s' : List ℚ → List ℚ → ℚ) :
    ({ m with similarity := s' } : SWAGExampleModel).accuracy = m.accuracy := rfl

/-- The outputs (first component) of `forward` do not depend on the incoming
accuracy accumulator. -/
lemma forward_fst_set_accuracy (E Lg : ℚ → ℚ) (m : SWAGExampleModel)
    (a : CategoricalAccuracy) (sp e0 e1 e2 e3 : TextFieldBatch)
    (lbl : Option (List ℕ)) (md : Option (List String)) :
    (SWAGExampleModel.forward E Lg { m with accuracy := a } sp e0 e1 e2 e3 lbl md).map Prod.fst
      = (SWAGExampleModel.forward E Lg m sp e0 e1 e2 e3 lbl md).map Prod.fst := by
  cases lbl with
  | none => rfl
  | some lbls =>
    simp only [forward_some, modelLogits_set_accuracy, accuracy_set_accuracy]
    cases hce : crossEntropyLoss E Lg (modelLogits m sp e0 e1 e2 e3) lbls with
    | error e => simp
    | ok v =>
      simp only [CategoricalAccuracy.call]
      cases hd : accDeltas (modelLogits m sp e0 e1 e2 e3) lbls with
      | error e => simp [Except.map]
      | ok d => simp [Except.map]

/-- The outputs (first component) of `forward` do not depend on the stored
similarity function. -/
lemma forward_fst_set_similarity (E Lg : ℚ → ℚ) (m : SWAGExampleModel)
    (s' : List ℚ → List ℚ → ℚ) (sp e0 e1 e2 e3 : TextFieldBatch)
    (lbl : Option (List ℕ)) (md : Option (List String)) :
    (SWAGExampleModel.forward E Lg { m with similarity := s' } sp e0 e1 e2 e3 lbl md).map Prod.fst
      = (SWAGExampleModel.forward E Lg m sp e0 e1 e2 e3 lbl md).map Prod.fst := by
  cases lbl with
  | none => rfl
  | some lbls =>
    simp only [forward_some, modelLogits_set_similarity, accuracy_set_similarity]
    cases hce : crossEntropyLoss E Lg (modelLogits m sp e0 e1 e2 e3) lbls with
    | error e => simp
    | ok v =>
      simp only [CategoricalAccuracy.call]
      cases hd : accDeltas (modelLogits m sp e0 e1 e2 e3) lbls with
      | error e => simp [Except.map]
      | ok d => simp [Except.map]

/-- Monadic bind on a succeeded `Except`. -/
lemma exceptBind_ok {α β : Type} (a : α) (f : α → Except String β) :
    (Except.ok a >>= f) = f a := rfl

/-- Monadic bind on a raised `Except`. -/
lemma exceptBind_error {α β : Type} (e : String) (f : α → Except String β) :
    ((Except.error e : Except String α) >>= f) = Except.error e := rfl

/-- Functorial map on a succeeded `Except`. -/
lemma exceptMap_ok {α β : Type} (f : α → β) (a : α) :
    (f <$> (Except.ok a : Except String α)) = Except.ok (f a) := rfl

/-- Functorial map on a raised `Except`. -/
lemma exceptMap_error {α β : Type} (f : α → β) (e : String) :
    (f <$> (Except.error e : Except String α)) = Except.error e := rfl

/-- Monadic return into `Except`. -/
lemma exceptPure {α : Type} (a : α) : (pure a : Except String α) = Except.ok a := rfl

/-- A dimension check between equal dimensions passes. -/
lemma check_dimensions_match_eq_ok {a b : ℕ} (h : a = b) (n1 n2 : String) :
    check_dimensions_match a b n1 n2 = .ok () := by
  simp [check_dimensions_match, h]

/-- A dimension check between unequal dimensions raises. -/
lemma check_dimensions_match_eq_error {a b : ℕ} (h : a ≠ b) (n1 n2 : String) :
    check_dimensions_match a b n1 n2 = .error (n1 ++ (" must match ") ++ n2) := by
  simp [check_dimensions_match, h]

/-- A successful construction is the record of the initialized modules, the
given similarity, and a zeroed accuracy accumulator. -/
lemma make_ok_inv {vocab : ℕ} {tfe : Embedder} {se ee : Seq2VecEncoder}
    {sim : List ℚ → List ℚ → ℚ}
    {init : Embedder × Seq2VecEncoder × Seq2VecEncoder →
      Embedder × Seq2VecEncoder × Seq2VecEncoder} {m : SWAGExampleModel}
    (h : SWAGExampleModel.make vocab tfe se ee sim init = .ok m) :
    m = { vocab := vocab
          text_field_embedder := (init (tfe, se, ee)).1
          startphrase_encoder := (init (tfe, se, ee)).2.1
          ending_encoder := (init (tfe, se, ee)).2.2
          similarity := sim
          accuracy := ⟨0, 0⟩ } := by
  unfold SWAGExampleModel.make at h
  by_cases h1 : tfe.get_output_dim = se.get_input_dim
  · by_cases h2 : tfe.get_output_dim = ee.get_input_dim
    · by_cases h3 : se.get_output_dim = ee.get_output_dim
      · simp only [check_dimensions_match_eq_ok h1, check_dimensions_match_eq_ok h2,
          check_dimensions_match_eq_ok h3, exceptBind_ok, exceptMap_ok, exceptPure,
          Except.ok.injEq] at h
        exact h.symm
      · simp only [check_dimensions_match_eq_ok h1, check_dimensions_match_eq_ok h2,
          check_dimensions_match_eq_error h3, exceptBind_ok, exceptBind_error,
          exceptMap_error] at h
        exact Except.noConfusion h
    · simp only [check_dimensions_match_eq_ok h1, check_dimensions_match_eq_error h2,
        exceptBind_ok, exceptBind_error] at h
      exact Except.noConfusion h
  · simp only [check_dimensions_match_eq_error h1, exceptBind_error] at h
    exact Except.noConfusion h

/-- Whenever a `forward` call succeeds, the accuracy accumulator is only ever
ADDED to: there are deltas, determined by the inputs alone, that the call adds
to whatever counts the accumulator held before — so `forward` never resets
(or otherwise rewrites) the accumulated counts. -/
lemma forward_accuracy_adds (E Lg : ℚ → ℚ) (m : SWAGExampleModel)
    (sp e0 e1 e2 e3 : TextFieldBatch) (lbl : Option (List ℕ)) (md : Option (List String))
    (out : OutDict) (m' : SWAGExampleModel)
    (h : SWAGExampleModel.forward E Lg m sp e0 e1 e2 e3 lbl md = .ok (out, m')) :
    ∃ c n : ℕ, ∀ a : CategoricalAccuracy,
      (SWAGExampleModel.forward E Lg { m with accuracy := a } sp e0 e1 e2 e3 lbl md).map
          (fun p => p.2.accuracy)
        = .ok ⟨a.correct_count + c, a.total_count + n⟩ := by
  cases lbl with
  | none =>
    refine ⟨0, 0, fun a => ?_⟩
    rw [forward_none]
    cases a with
    | mk ac atot => simp [Except.map, accuracy_set_accuracy]
  | some lbls =>
    rw [forward_some] at h
    cases hce : crossEntropyLoss E Lg (modelLogits m sp e0 e1 e2 e3) lbls with
    | error e =>
      rw [hce] at h
      exact Except.noConfusion h
    | ok v =>
      cases hd : accDeltas (modelLogits m sp e0 e1 e2 e3) lbls with
      | error e =>
        rw [hce] at h
        simp only [CategoricalAccuracy.call] at h
        rw [hd] at h
        exact Except.noConfusion h
      | ok d =>
        refine ⟨d.1, d.2, fun a => ?_⟩
        rw [forward_some]
        simp only [modelLogits_set_accuracy, accuracy_set_accuracy, hce,
          CategoricalAccuracy.call, hd, Except.map]

/-! ### Concrete fixtures for witnesses and evaluations -/

/-- A concrete embedder with output dimension 2. -/
def egEmbedder : Embedder :=
  ⟨2, fun toks => toks.map (fun t => [(t : ℚ), 1])⟩

/-- A concrete encoder taking 2-dimensional token vectors to a 2-dimensional
sequence vector. -/
def egEncoder : Seq2VecEncoder :=
  ⟨2, 2, fun vecs mk => [(vecs.length : ℚ), ((mk.sum : ℕ) : ℚ)]⟩

/-- A concrete model built from the fixtures. -/
def egModel : SWAGExampleModel :=
  { vocab := 0
    text_field_embedder := egEmbedder
    startphrase_encoder := egEncoder
    ending_encoder := egEncoder
    similarity := fun _ _ => 0
    accuracy := ⟨0, 0⟩ }

/-- The identity on ℚ, standing in for a concrete numeric backend function. -/
def idQ : ℚ → ℚ := fun q => q

/-! ### The claims -/

/-- C1: the claim states that the logits and probabilities returned by
`forward` have shape (B, 4) for every batch size B ≥ 1.  The code's own
docstring promises a `batch_size x num_endings` tensor, but the `squeeze()`
after the `bmm` removes every size-1 dimension, so a batch of one collapses
both tensors to shape (4,): the claim is right and the code has a shape bug
at B = 1 (spec §9 flags exactly this).  Evaluated here at a concrete batch of
one (shapes come out as [4], not [1, 4]) and, for contrast, at a batch of two
(shape [2, 4] as documented). -/
theorem C1_shape_collapses_at_batch_one :
    (SWAGExampleModel.forward idQ idQ egModel [[1, 2]] [[3]] [[4]] [[5]] [[6]] none none).map
        (fun p => ((dictGet? p.1 ("logits")).map OutVal.tensorShape?,
          (dictGet? p.1 ("probabilities")).map OutVal.tensorShape?))
      = .ok (some (some [4]), some (some [4]))
    ∧ (SWAGExampleModel.forward idQ idQ egModel [[1, 2], [1, 2]] [[3], [3]] [[4], [4]]
          [[5], [5]] [[6], [6]] none none).map
        (fun p => ((dictGet? p.1 ("logits")).map OutVal.tensorShape?,
          (dictGet? p.1 ("probabilities")).map OutVal.tensorShape?))
      = .ok (some (some [2, 4]), some (some [2, 4]))
    ∧ ([4] : List ℕ) ≠ [1, 4] :=
  ⟨rfl, rfl, by decide⟩

/-- C2: for every CSV whose header row contains the five text columns and
whose N data rows each fill every header column, `_read` yields exactly N
examples, one per data row, in row order. -/
theorem C2_read_yields_one_example_per_row (r : SWAGDatasetReader) (csv : CSVFile)
    (h0 : ("startphrase") ∈ csv.header) (h1 : ("ending0") ∈ csv.header)
    (h2 : ("ending1") ∈ csv.header) (h3 : ("ending2") ∈ csv.header)
    (h4 : ("ending3") ∈ csv.header)
    (hrect : ∀ row ∈ csv.rows, row.length = csv.header.length) :
    r.read csv = .ok (csv.rows.map (rowInstance r csv.header))
    ∧ (csv.rows.map (rowInstance r csv.header)).length = csv.rows.length :=
  ⟨read_ok r csv h0 h1 h2 h3 h4 hrect, List.length_map _ _⟩

/-- Witness for C2 at a concrete two-row CSV. -/
theorem C2_read_yields_one_example_per_row_witness :
    SWAGDatasetReader.read ⟨false, fun s => [s]⟩
        ⟨[("startphrase"), ("ending0"), ("ending1"), ("ending2"), ("ending3"), ("label")],
          [[("a"), ("b"), ("c"), ("d"), ("e"), ("0")],
           [("f"), ("g"), ("h"), ("i"), ("j"), ("1")]]⟩
      = .ok [⟨[("a")], [("b")], [("c")], [("d")], [("e")], some ("0")⟩,
             ⟨[("f")], [("g")], [("h")], [("i")], [("j")], some ("1")⟩] :=
  (C2_read_yields_one_example_per_row ⟨false, fun s => [s]⟩
    ⟨[("startphrase"), ("ending0"), ("ending1"), ("ending2"), ("ending3"), ("label")],
      [[("a"), ("b"), ("c"), ("d"), ("e"), ("0")],
       [("f"), ("g"), ("h"), ("i"), ("j"), ("1")]]⟩
    (by decide) (by decide) (by decide) (by decide) (by decide) (by decide)).1.trans rfl

/-- C3 counterexample: the claim states that a row with an EMPTY label field
yields an example with no label field.  In the code `row.get('label')`
returns the empty string, which `is not None`, so a `LabelField('')` IS
added: at this concrete one-row CSV the produced example's label is
`some ""`, not absent. -/
theorem C3_counterexample_empty_label_kept :
    (SWAGDatasetReader.read ⟨false, fun s => [s]⟩
        ⟨[("startphrase"), ("ending0"), ("ending1"), ("ending2"), ("ending3"), ("label")],
          [[("a"), ("b"), ("c"), ("d"), ("e"), ("")]]⟩).map (fun l => l.map Instance.label)
      = .ok [some ("")]
    ∧ (some ("") : Option String) ≠ none :=
  ⟨rfl, by decide⟩

/-- C3 (amended): a row whose label COLUMN is absent (or never reached by
the row's cells) yields an example with no label field; a present label cell
is kept verbatim, so an empty-string cell yields the label `""` and a cell
`2` yields the label `"2"`. -/
theorem C3_label_absent_vs_present (r : SWAGDatasetReader) (header row : List String)
    (h0 : ("startphrase") ∈ header) (h1 : ("ending0") ∈ header)
    (h2 : ("ending1") ∈ header) (h3 : ("ending2") ∈ header)
    (h4 : ("ending3") ∈ header) (hlen : row.length = header.length) :
    r.read ⟨header, [row]⟩ = .ok [rowInstance r header row]
    ∧ (("label") ∉ header → (rowInstance r header row).label = none)
    ∧ (∀ s : String, dictGet? (dictZip header row) ("label") = some (some s) →
        (rowInstance r header row).label = some s) := by
  refine ⟨?_, ?_, ?_⟩
  · have h := read_ok r ⟨header, [row]⟩ h0 h1 h2 h3 h4
      (by intro row' hrow'; rw [List.mem_singleton.mp hrow']; exact hlen)
    simpa using h
  · intro hla
    simp [rowInstance, SWAGDatasetReader.text_to_instance, dictGet?_not_mem hla]
  · intro s hs
    simp [rowInstance, SWAGDatasetReader.text_to_instance, hs]

/-- Witness for C3 (amended) at concrete rows: a label cell `2` gives the
label string `"2"`, and a header without a label column gives no label. -/
theorem C3_label_absent_vs_present_witness :
    (rowInstance ⟨false, fun s => [s]⟩
        [("startphrase"), ("ending0"), ("ending1"), ("ending2"), ("ending3"), ("label")]
        [("a"), ("b"), ("c"), ("d"), ("e"), ("2")]).label = some ("2")
    ∧ (rowInstance ⟨false, fun s => [s]⟩
        [("startphrase"), ("ending0"), ("ending1"), ("ending2"), ("ending3")]
        [("a"), ("b"), ("c"), ("d"), ("e")]).label = none :=
  ⟨(C3_label_absent_vs_present ⟨false, fun s => [s]⟩
      [("startphrase"), ("ending0"), ("ending1"), ("ending2"), ("ending3"), ("label")]
      [("a"), ("b"), ("c"), ("d"), ("e"), ("2")]
      (by decide) (by decide) (by decide) (by decide) (by decide) (by decide)).2.2
      ("2") rfl,
   (C3_label_absent_vs_present ⟨false, fun s => [s]⟩
      [("startphrase"), ("ending0"), ("ending1"), ("ending2"), ("ending3")]
      [("a"), ("b"), ("c"), ("d"), ("e")]
      (by decide) (by decide) (by decide) (by decide) (by decide) (by decide)).2.1
      (by decide)⟩

/-- C4: construction succeeds exactly when the embedder's output dimension
equals both encoders' input dimensions and the two encoders' output
dimensions are equal; any mismatch raises the configuration error inside the
constructor, before any forward pass can exist. -/
theorem C4_construction_succeeds_iff_dims_match (vocab : ℕ) (tfe : Embedder)
    (se ee : Seq2VecEncoder) (sim : List ℚ → List ℚ → ℚ)
    (init : Embedder × Seq2VecEncoder × Seq2VecEncoder →
      Embedder × Seq2VecEncoder × Seq2VecEncoder) :
    (∃ m, SWAGExampleModel.make vocab tfe se ee sim init = .ok m)
      ↔ (tfe.get_output_dim = se.get_input_dim
          ∧ tfe.get_output_dim = ee.get_input_dim
          ∧ se.get_output_dim = ee.get_output_dim) := by
  constructor
  · rintro ⟨m, hm⟩
    unfold SWAGExampleModel.make at hm
    by_cases h1 : tfe.get_output_dim = se.get_input_dim
    · by_cases h2 : tfe.get_output_dim = ee.get_input_dim
      · by_cases h3 : se.get_output_dim = ee.get_output_dim
        · exact ⟨h1, h2, h3⟩
        · simp only [check_dimensions_match_eq_ok h1, check_dimensions_match_eq_ok h2,
            check_dimensions_match_eq_error h3, exceptBind_ok, exceptBind_error,
            exceptMap_error] at hm
          exact Except.noConfusion hm
      · simp only [check_dimensions_match_eq_ok h1, check_dimensions_match_eq_error h2,
          exceptBind_ok, exceptBind_error] at hm
        exact Except.noConfusion hm
    · simp only [check_dimensions_match_eq_error h1, exceptBind_error] at hm
      exact Except.noConfusion hm
  · rintro ⟨h1, h2, h3⟩
    unfold SWAGExampleModel.make
    simp only [check_dimensions_match_eq_ok h1, check_dimensions_match_eq_ok h2,
      check_dimensions_match_eq_ok h3, exceptBind_ok, exceptMap_ok]
    exact ⟨_, rfl⟩

/-- C5: per example, the four logits of `forward` are the dot products of
the startphrase vector (startphrase encoder over the shared embedding) with
the four ending vectors (the one ending encoder applied to each of the four
endings over the same shared embedder), i.e. the stack/bmm/unsqueeze pipeline
computes exactly the spec's dot-product description (up to the final
squeeze reshaping).  The side condition asks the startphrase encoder to
return nonempty vectors, which every encoder with a positive output
dimension does. -/
theorem C5_logits_are_the_dot_products (m : SWAGExampleModel)
    (sp e0 e1 e2 e3 : TextFieldBatch) (E Lg : ℚ → ℚ)
    (hne : ∀ v mk, m.startphrase_encoder.encode v mk ≠ []) :
    modelLogits3 m sp e0 e1 e2 e3
        = (specDotScores m sp e0 e1 e2 e3).map (fun r => r.map (fun q => [q]))
    ∧ (SWAGExampleModel.forward E Lg m sp e0 e1 e2 e3 none none).map
          (fun p => dictGet? p.1 ("logits"))
        = .ok (some (.tensor ((tensor3 ((specDotScores m sp e0 e1 e2 e3).map
            (fun r => r.map (fun q => [q])))).squeeze))) := by
  have hmain : modelLogits3 m sp e0 e1 e2 e3
      = (specDotScores m sp e0 e1 e2 e3).map (fun r => r.map (fun q => [q])) := by
    simp only [modelLogits3, specDotScores, bmm, encodeField]
    exact zipWith_matMul_unsqueezeLast _ _
      (forall_mem_zipWith (fun sv => sv ≠ []) m.startphrase_encoder.encode hne _ _)
  refine ⟨hmain, ?_⟩
  rw [forward_none]
  simp only [Except.map, outDict_get_logits, modelLogits, hmain]

/-- Witness for C5 at the concrete fixture model and a batch of one. -/
theorem C5_logits_are_the_dot_products_witness :
    modelLogits3 egModel [[1, 2]] [[3]] [[4]] [[5]] [[6]]
      = (specDotScores egModel [[1, 2]] [[3]] [[4]] [[5]] [[6]]).map
          (fun r => r.map (fun q => [q])) :=
  (C5_logits_are_the_dot_products egModel [[1, 2]] [[3]] [[4]] [[5]] [[6]] idQ idQ
    (fun v mk => by simp [egModel, egEncoder])).1

/-- C6: the claim states that `forward` returns a cross-entropy loss
whenever gold labels are supplied.  At batch size 1 the `squeeze()` leaves
rank-1 logits, and the cross-entropy (and the accuracy metric) require an
(N, C) input with an (N,) target, so the call raises instead of returning a
loss: the claim matches the documented intent and the code fails at B = 1.
At batch size 2 the loss is present and the accuracy accumulator counts the
two examples, as claimed. -/
theorem C6_loss_path_raises_at_batch_one :
    SWAGExampleModel.forward idQ idQ egModel [[1, 2]] [[3]] [[4]] [[5]] [[6]] (some [0]) none
      = .error ("cross_entropy: expected 2-dimensional input")
    ∧ (SWAGExampleModel.forward idQ idQ egModel [[1, 2], [1, 2]] [[3], [3]] [[4], [4]]
          [[5], [5]] [[6], [6]] (some [0, 1]) none).map
        (fun p => (((dictGet? p.1 ("loss")).bind OutVal.loss?).map Option.isSome,
          p.2.accuracy.total_count))
      = .ok (some true, 2) :=
  ⟨rfl, rfl⟩

/-- C7: `forward` is pure apart from the accuracy accumulator: its outputs do
not depend on the accumulator's contents, a successful call changes nothing
of the model except possibly the accumulator, a call without labels returns
the model state untouched, and `get_metrics` resets the accumulator exactly
when called with `reset = true`.  Moreover `forward` itself never resets the
accumulator: a successful call can only grow both counts, and does so by
adding input-determined deltas to whatever counts were accumulated before. -/
theorem C7_forward_mutates_only_the_accuracy (E Lg : ℚ → ℚ) (m : SWAGExampleModel)
    (sp e0 e1 e2 e3 : TextFieldBatch) (lbl : Option (List ℕ)) (md : Option (List String)) :
    (∀ a : CategoricalAccuracy,
        (SWAGExampleModel.forward E Lg { m with accuracy := a } sp e0 e1 e2 e3 lbl md).map Prod.fst
          = (SWAGExampleModel.forward E Lg m sp e0 e1 e2 e3 lbl md).map Prod.fst)
    ∧ (∀ out m', SWAGExampleModel.forward E Lg m sp e0 e1 e2 e3 lbl md = .ok (out, m') →
        m' = { m with accuracy := m'.accuracy })
    ∧ (∀ out m', SWAGExampleModel.forward E Lg m sp e0 e1 e2 e3 lbl md = .ok (out, m') →
        m.accuracy.correct_count ≤ m'.accuracy.correct_count
          ∧ m.accuracy.total_count ≤ m'.accuracy.total_count)
    ∧ (∀ out m', SWAGExampleModel.forward E Lg m sp e0 e1 e2 e3 lbl md = .ok (out, m') →
        ∃ c n : ℕ, ∀ a : CategoricalAccuracy,
          (SWAGExampleModel.forward E Lg { m with accuracy := a } sp e0 e1 e2 e3 lbl md).map
              (fun p => p.2.accuracy)
            = .ok ⟨a.correct_count + c, a.total_count + n⟩)
    ∧ (SWAGExampleModel.forward E Lg m sp e0 e1 e2 e3 none md).map Prod.snd = .ok m
    ∧ (m.get_metrics false).2 = m
    ∧ (m.get_metrics true).2 = { m with accuracy := ⟨0, 0⟩ } := by
  refine ⟨fun a => forward_fst_set_accuracy E Lg m a sp e0 e1 e2 e3 lbl md, ?_, ?_,
    fun out m' h => forward_accuracy_adds E Lg m sp e0 e1 e2 e3 lbl md out m' h,
    rfl, rfl, rfl⟩
  · intro out m' h
    cases lbl with
    | none =>
      rw [forward_none] at h
      simp only [Except.ok.injEq, Prod.mk.injEq] at h
      rw [ h.2.symm ]
    | some lbls =>
      rw [forward_some] at h
      cases hce : crossEntropyLoss E Lg (modelLogits m sp e0 e1 e2 e3) lbls with
      | error e =>
        rw [hce] at h
        exact Except.noConfusion h
      | ok v =>
        rw [hce] at h
        simp only [CategoricalAccuracy.call] at h
        cases hd : accDeltas (modelLogits m sp e0 e1 e2 e3) lbls with
        | error e =>
          rw [hd] at h
          exact Except.noConfusion h
        | ok d =>
          rw [hd] at h
          simp only [Except.map, Except.ok.injEq, Prod.mk.injEq] at h
          rw [ h.2.symm ]
  · intro out m' h
    obtain ⟨c, n, hadd⟩ := forward_accuracy_adds E Lg m sp e0 e1 e2 e3 lbl md out m' h
    have hm : ({ m with accuracy := m.accuracy } : SWAGExampleModel) = m := rfl
    have hadd' := hadd m.accuracy
    rw [hm, h] at hadd'
    simp only [Except.map, Except.ok.injEq] at hadd'
    rw [hadd']
    exact ⟨Nat.le_add_right _ _, Nat.le_add_right _ _⟩

/-- C8: two models constructed identically except for the `similarity`
argument produce identical outputs on every batch: the similarity function is
stored at construction and never used by `forward`. -/
theorem C8_similarity_never_used (vocab : ℕ) (tfe : Embedder) (se ee : Seq2VecEncoder)
    (sim1 sim2 : List ℚ → List ℚ → ℚ)
    (init : Embedder × Seq2VecEncoder × Seq2VecEncoder →
      Embedder × Seq2VecEncoder × Seq2VecEncoder) (m1 m2 : SWAGExampleModel)
    (h1 : SWAGExampleModel.make vocab tfe se ee sim1 init = .ok m1)
    (h2 : SWAGExampleModel.make vocab tfe se ee sim2 init = .ok m2)
    (E Lg : ℚ → ℚ) (sp e0 e1 e2 e3 : TextFieldBatch)
    (lbl : Option (List ℕ)) (md : Option (List String)) :
    (SWAGExampleModel.forward E Lg m1 sp e0 e1 e2 e3 lbl md).map Prod.fst
      = (SWAGExampleModel.forward E Lg m2 sp e0 e1 e2 e3 lbl md).map Prod.fst := by
  have hm2 : m2 = { m1 with similarity := sim2 } := by
    rw [make_ok_inv h1, make_ok_inv h2]
  rw [hm2]
  exact (forward_fst_set_similarity E Lg m1 sim2 sp e0 e1 e2 e3 lbl md).symm

/-- Witness for C8 at two concretely constructed models differing only in
their similarity functions. -/
theorem C8_similarity_never_used_witness :
    (SWAGExampleModel.forward idQ idQ
        ⟨0, egEmbedder, egEncoder, egEncoder, fun _ _ => 1, ⟨0, 0⟩⟩
        [[1]] [[2]] [[3]] [[4]] [[5]] none none).map Prod.fst
      = (SWAGExampleModel.forward idQ idQ
        ⟨0, egEmbedder, egEncoder, egEncoder, fun _ _ => 2, ⟨0, 0⟩⟩
        [[1]] [[2]] [[3]] [[4]] [[5]] none none).map Prod.fst :=
  C8_similarity_never_used 0 egEmbedder egEncoder egEncoder
    (fun _ _ => 1) (fun _ _ => 2) (fun t => t)
    ⟨0, egEmbedder, egEncoder, egEncoder, fun _ _ => 1, ⟨0, 0⟩⟩
    ⟨0, egEmbedder, egEncoder, egEncoder, fun _ _ => 2, ⟨0, 0⟩⟩
    rfl rfl idQ idQ [[1]] [[2]] [[3]] [[4]] [[5]] none none

/-- C9: a present label value reaches the produced example as the unmodified
string from the CSV cell — any string at all, so no integer conversion and no
validation against 0..3 happens in the reader. -/
theorem C9_label_passed_through_unmodified (r : SWAGDatasetReader)
    (header row : List String) (s : String)
    (h0 : ("startphrase") ∈ header) (h1 : ("ending0") ∈ header)
    (h2 : ("ending1") ∈ header) (h3 : ("ending2") ∈ header)
    (h4 : ("ending3") ∈ header) (hlen : row.length = header.length)
    (hs : dictGet? (dictZip header row) ("label") = some (some s)) :
    (r.read ⟨header, [row]⟩).map (fun l => l.map Instance.label) = .ok [some s] := by
  have h := read_ok r ⟨header, [row]⟩ h0 h1 h2 h3 h4
    (by intro row' hrow'; rw [List.mem_singleton.mp hrow']; exact hlen)
  simp [h, Except.map, rowInstance, SWAGDatasetReader.text_to_instance, hs]

/-- Witness for C9 with the out-of-range label string `banana`, passed
through verbatim. -/
theorem C9_label_passed_through_unmodified_witness :
    (SWAGDatasetReader.read ⟨false, fun s => [s]⟩
        ⟨[("startphrase"), ("ending0"), ("ending1"), ("ending2"), ("ending3"), ("label")],
          [[("a"), ("b"), ("c"), ("d"), ("e"), ("banana")]]⟩).map
        (fun l => l.map Instance.label)
      = .ok [some ("banana")] :=
  C9_label_passed_through_unmodified ⟨false, fun s => [s]⟩
    [("startphrase"), ("ending0"), ("ending1"), ("ending2"), ("ending3"), ("label")]
    [("a"), ("b"), ("c"), ("d"), ("e"), ("banana")] ("banana")
    (by decide) (by decide) (by decide) (by decide) (by decide) (by decide) rfl

/-- C10: whenever `forward` returns, its dictionary has exactly the three
keys `logits`, `probabilities` and `loss`, in that order, and with no labels
the `loss` key is still present and maps to `None`. -/
theorem C10_output_dict_has_three_keys (E Lg : ℚ → ℚ) (m : SWAGExampleModel)
    (sp e0 e1 e2 e3 : TextFieldBatch) (lbl : Option (List ℕ)) (md : Option (List String))
    (out : OutDict) (m' : SWAGExampleModel)
    (h : SWAGExampleModel.forward E Lg m sp e0 e1 e2 e3 lbl md = .ok (out, m')) :
    out.map Prod.fst = [("logits"), ("probabilities"), ("loss")]
    ∧ (lbl = none → dictGet? out ("loss") = some (.loss none)) := by
  cases lbl with
  | none =>
    rw [forward_none] at h
    simp only [Except.ok.injEq, Prod.mk.injEq] at h
    rw [ h.1.symm ]
    exact ⟨outDict_keys _ _ _, fun _ => outDict_get_loss _ _ _⟩
  | some lbls =>
    rw [forward_some] at h
    cases hce : crossEntropyLoss E Lg (modelLogits m sp e0 e1 e2 e3) lbls with
    | error e =>
      rw [hce] at h
      exact Except.noConfusion h
    | ok v =>
      rw [hce] at h
      simp only [CategoricalAccuracy.call] at h
      cases hd : accDeltas (modelLogits m sp e0 e1 e2 e3) lbls with
      | error e =>
        rw [hd] at h
        exact Except.noConfusion h
      | ok d =>
        rw [hd] at h
        simp only [Except.map, Except.ok.injEq, Prod.mk.injEq] at h
        rw [ h.1.symm ]
        exact ⟨outDict_keys _ _ _, fun hn => Option.noConfusion hn⟩

/-- Witness for C10 at a concrete unlabeled batch of one. -/
theorem C10_output_dict_has_three_keys_witness :
    (outDict (modelLogits egModel [[1]] [[2]] [[3]] [[4]] [[5]])
        ((modelLogits egModel [[1]] [[2]] [[3]] [[4]] [[5]]).softmaxLast idQ) none).map Prod.fst
      = [("logits"), ("probabilities"), ("loss")] :=
  (C10_output_dict_has_three_keys idQ idQ egModel [[1]] [[2]] [[3]] [[4]] [[5]] none none
    (outDict (modelLogits egModel [[1]] [[2]] [[3]] [[4]] [[5]])
      ((modelLogits egModel [[1]] [[2]] [[3]] [[4]] [[5]]).softmaxLast idQ) none)
    egModel rfl).1

end SwagExample
